import Mathlib

/-!
Verification of the GoTalk real-time fan-out hub (src/backend/main.go).

The Go program keeps a registry `clients : map[chan string]bool` guarded by a
single mutex, a buffered channel `broadcast = make(chan string, 100)` fed by a
NATS subscription, a broadcaster goroutine `handleMessages` that performs one
non-blocking send per registered client channel, and one `streamHandler`
session per streaming HTTP request with a deferred cleanup (delete from the
map, close the channel).  HTTP handlers `sendHandler`, `updateProfileHandler`
and `loginHandler` are modelled as pure functions of the request fields and of
the results of the external database and NATS calls.
-/

namespace GoTalk

/-- Chat message value, mirroring `type Message struct` of src/backend/main.go
(fields ID, Content, SenderPod, SenderNick, SenderColor, Time). -/
structure Message where
  id : Nat
  content : String
  sender_pod : String
  sender_nick : String
  sender_color : String
  time : String
deriving Repr, DecidableEq

/-- User profile value, mirroring `type User struct` (Nickname, ColorCode). -/
structure User where
  nickname : String
  color_code : String
deriving Repr, DecidableEq

/-- One client's private buffered Go channel (`make(chan string, 10)` in
`streamHandler`): a FIFO buffer `buf` (front = oldest) bounded by `cap`. -/
structure ClientQueue where
  cap : Nat
  buf : List String
deriving Repr, DecidableEq

/-- The non-blocking send in `handleMessages`
(`select { case clientChan <- msg: default: }`): append when the buffer has
free capacity, otherwise leave the channel untouched (message dropped for
that one client). -/
def trySend (q : ClientQueue) (msg : String) : ClientQueue :=
  if q.buf.length < q.cap then { q with buf := q.buf ++ [msg] } else q

/-- The registry of currently connected clients, the Go map
`clients = make(map[chan string]bool)`, modelled as an association list from a
channel identity to the channel's state.  Identities of live registrations are
pairwise distinct (each session allocates a fresh channel). -/
def Registry := List (Nat × ClientQueue)

/-- One full-registry fan-out of `handleMessages` (src/backend/main.go:77-86):
under the mutex, one non-blocking delivery attempt per registered channel. -/
def broadcastOnce (msg : String) (regs : List (Nat × ClientQueue)) :
    List (Nat × ClientQueue) :=
  regs.map (fun r => (r.1, trySend r.2 msg))

/-- Fold of successive broadcaster fan-outs: the broadcaster drains its input
channel one message at a time, running `broadcastOnce` for each. -/
def broadcastAll (msgs : List String) (regs : List (Nat × ClientQueue)) :
    List (Nat × ClientQueue) :=
  msgs.foldl (fun rs m => broadcastOnce m rs) regs

/-- C1.  For every `Broadcast(payload)` the broadcaster makes exactly one
delivery attempt per registered queue: the fanned-out registry has the same
length as before, and its i-th entry is exactly the i-th input registration
with the payload appended when that queue had free capacity and unchanged
(dropped for that registration only) when it was full — the i-th outcome is a
function of the i-th input queue alone, so no queue state can prevent the
attempts on the remaining registrations. -/
theorem broadcast_attempts_each_registration_once
    (msg : String) (regs : List (Nat × ClientQueue)) (i : Nat) :
    (broadcastOnce msg regs).length = regs.length ∧
    (broadcastOnce msg regs)[i]? = (regs[i]?).map (fun r =>
      (r.1, if r.2.buf.length < r.2.cap
            then { r.2 with buf := r.2.buf ++ [msg] }
            else r.2)) := by
  constructor
  · simp [broadcastOnce]
  · simp only [broadcastOnce, List.getElem?_map]
    cases regs[i]? with
    | none => rfl
    | some r => simp [trySend]

/-- Deleting a registration from the clients map
(`delete(clients, myChan)` in the deferred cleanup): Go map deletion by key. -/
def removeClient (id : Nat) (regs : List (Nat × ClientQueue)) :
    List (Nat × ClientQueue) :=
  regs.filter (fun r => r.1 != id)

/-- Hub state as the deferred cleanup sees it: the clients map plus the set of
channel identities that have already been closed (`close` was called). -/
structure HubState where
  regs : List (Nat × ClientQueue)
  closedChans : List Nat
deriving Repr, DecidableEq

/-- Registration at the start of `streamHandler` (src/backend/main.go:124-128):
allocate a fresh channel and insert it into the clients map under the mutex. -/
def registerClient (id : Nat) (q : ClientQueue) (st : HubState) : HubState :=
  { st with regs := (id, q) :: st.regs }

/-- The deferred cleanup body of `streamHandler` (src/backend/main.go:134-142):
under the mutex, `delete(clients, myChan)` then `close(myChan)`.  Closing an
already-closed Go channel panics; the panic is modelled as `Except.error`. -/
def deregStep (id : Nat) (st : HubState) : Except String HubState :=
  let regs1 := removeClient id st.regs
  if id ∈ st.closedChans then Except.error "close of closed channel"
  else Except.ok { regs := regs1, closedChans := id :: st.closedChans }

theorem removeClient_idem (id : Nat) (regs : List (Nat × ClientQueue)) :
    removeClient id (removeClient id regs) = removeClient id regs := by
  simp [removeClient, List.filter_filter]

theorem removeClient_of_fresh (id : Nat) (regs : List (Nat × ClientQueue))
    (h : id ∉ regs.map Prod.fst) : removeClient id regs = regs := by
  rw [removeClient, List.filter_eq_self]
  intro r hr
  simp only [bne_iff_ne, ne_eq, decide_eq_true_eq]
  rintro rfl
  exact h (List.mem_map.mpr ⟨r, hr, rfl⟩)

/-- C2 counterexample.  Registration 7 has already been deregistered: it is
absent from the clients map and its channel is closed.  Running the
deregistration step (map delete + channel close) on it again is not a no-op
that does not fail — it panics on `close` of a closed channel, refuting the
claim that double-deregistration cannot fail. -/
theorem dereg_absent_registration_panics :
    deregStep 7 { regs := [], closedChans := [7] } =
      Except.error "close of closed channel" := by
  simp [deregStep]

/-- C2 amended.  The registry-removal half of deregistration is idempotent
(deleting an already-absent key from the clients map is a no-op), and
`Register` of a fresh channel followed immediately by the deregistration step
succeeds and leaves the clients map with exactly the membership it had before
the `Register`; but the full deregistration step run on an
already-deregistered registration panics on the double channel close rather
than being a failure-free no-op. -/
theorem dereg_remove_idempotent_and_register_inverse
    (id : Nat) (q : ClientQueue) (st : HubState)
    (hfresh : id ∉ st.regs.map Prod.fst) (hopen : id ∉ st.closedChans) :
    removeClient id (removeClient id st.regs) = removeClient id st.regs ∧
    deregStep id (registerClient id q st) =
      Except.ok { regs := st.regs, closedChans := id :: st.closedChans } ∧
    (∀ st2 : HubState, id ∈ st2.closedChans →
      ∃ e, deregStep id st2 = Except.error e) := by
  refine ⟨removeClient_idem id st.regs, ?_, ?_⟩
  · have hrm : removeClient id ((id, q) :: st.regs) = st.regs := by
      simp only [removeClient, List.filter_cons, bne_self_eq_false,
        Bool.false_eq_true, if_false]
      exact removeClient_of_fresh id st.regs hfresh
    simp [deregStep, registerClient, hopen, hrm]
  · intro st2 h2
    exact ⟨"close of closed channel", by simp [deregStep, h2]⟩

/-- C2 witness: the amended theorem applied at a concrete fresh registration
over a concrete one-element registry. -/
theorem dereg_remove_idempotent_and_register_inverse_witness :
    deregStep 5 (registerClient 5 ⟨10, []⟩
        { regs := [(3, ⟨10, ["a"]⟩)], closedChans := [2] }) =
      Except.ok { regs := [(3, ⟨10, ["a"]⟩)], closedChans := [5, 2] } :=
  (dereg_remove_idempotent_and_register_inverse 5 ⟨10, []⟩
    { regs := [(3, ⟨10, ["a"]⟩)], closedChans := [2] }
    (by decide) (by decide)).2.1

/-- Capacity of the broadcaster's input channel,
`broadcast = make(chan string, 100)` (src/backend/main.go:25). -/
def broadcastChanCap : Nat := 100

/-- Possible behaviours of the handoff from the subscription callback into the
broadcaster's input channel, distinguishing the two policies the spec allows
for a full channel from what a plain Go channel send does. -/
inductive HandoffOutcome
  | sent (chan : List String)
  | blockedWithoutBound
  | droppedWithMetric
  | deadlineBounded
deriving Repr, DecidableEq

/-- The `chat.global` subscription callback body (src/backend/main.go:105-108):
`broadcast <- string(m.Data)` is a plain blocking send on the capacity-100
`broadcast` channel.  It enqueues immediately while the channel has free
capacity; when the channel is full it parks the NATS delivery goroutine until
space frees, with no timeout and no drop path. -/
def bridgeHandoff (chan : List String) (payload : String) : HandoffOutcome :=
  if chan.length < broadcastChanCap then HandoffOutcome.sent (chan ++ [payload])
  else HandoffOutcome.blockedWithoutBound

/-- C3 counterexample.  With the broadcaster's input channel full (100 queued
payloads), the handoff neither drops the payload with a counted metric nor
blocks only up to a deadline: it blocks the transport's delivery goroutine
without bound, refuting the claim that one of the two bounded policies is in
place. -/
theorem bridge_handoff_full_blocks_unboundedly :
    bridgeHandoff (List.replicate 100 "m") "x" =
        HandoffOutcome.blockedWithoutBound ∧
    HandoffOutcome.blockedWithoutBound ≠ HandoffOutcome.droppedWithMetric ∧
    HandoffOutcome.blockedWithoutBound ≠ HandoffOutcome.deadlineBounded := by
  refine ⟨?_, by decide, by decide⟩
  simp [bridgeHandoff, broadcastChanCap]

/-- C3 amended.  The handoff enqueues immediately whenever the broadcaster's
input channel has free capacity, and when the channel is full it blocks the
transport's delivery thread without bound until capacity frees; it never drops
the payload and never applies a deadline — neither of the two bounded
policies named by the claim is implemented. -/
theorem bridge_handoff_policy (chan : List String) (payload : String) :
    (chan.length < broadcastChanCap →
      bridgeHandoff chan payload = HandoffOutcome.sent (chan ++ [payload])) ∧
    (broadcastChanCap ≤ chan.length →
      bridgeHandoff chan payload = HandoffOutcome.blockedWithoutBound) ∧
    bridgeHandoff chan payload ≠ HandoffOutcome.droppedWithMetric ∧
    bridgeHandoff chan payload ≠ HandoffOutcome.deadlineBounded := by
  refine ⟨fun h => by simp [bridgeHandoff, h], fun h => ?_, ?_, ?_⟩
  · simp [bridgeHandoff, Nat.not_lt.mpr h]
  · unfold bridgeHandoff
    split <;> simp
  · unfold bridgeHandoff
    split <;> simp

/-- C3 witness: the amended policy evaluated on an empty channel and on a full
channel. -/
theorem bridge_handoff_policy_witness :
    bridgeHandoff [] "x" = HandoffOutcome.sent ["x"] ∧
    bridgeHandoff (List.replicate 100 "m") "y" =
      HandoffOutcome.blockedWithoutBound :=
  ⟨(bridge_handoff_policy [] "x").1 (by simp [broadcastChanCap]),
   (bridge_handoff_policy (List.replicate 100 "m") "y").2.1
     (by simp [broadcastChanCap])⟩

/-- Events the select loop of `streamHandler` (src/backend/main.go:146-157)
can wake up on: the context's cancellation signal, a payload arriving on the
session's private channel, or the 15-second keepalive timeout. -/
inductive SessionEvent
  | cancel
  | deliver (payload : String)
  | tick
deriving Repr, DecidableEq

/-- Frames the session writes to the HTTP response. -/
inductive OutFrame
  | data (payload : String)
  | keepalive
deriving Repr, DecidableEq

/-- The select loop body: `deliver` writes a data frame and loops, `tick`
writes a keepalive frame and loops, `cancel` returns from the handler.  The
result is the frames written before the return, or `none` when the event
trace ends with the loop still running (the loop has no other exit path:
write errors are not checked). -/
def sessionLoop : List SessionEvent → Option (List OutFrame)
  | [] => none
  | SessionEvent.cancel :: _ => some []
  | SessionEvent.deliver p :: rest =>
      (sessionLoop rest).map (fun fs => OutFrame.data p :: fs)
  | SessionEvent.tick :: rest =>
      (sessionLoop rest).map (fun fs => OutFrame.keepalive :: fs)

/-- Registry operations a session performs, recorded as a trace. -/
inductive RegOp
  | reg (id : Nat)
  | dereg (id : Nat)
deriving Repr, DecidableEq

/-- Outcome of a completed session: frames written, the trace of registry
operations, and the hub state after the deferred cleanup ran. -/
structure SessionExit where
  frames : List OutFrame
  ops : List RegOp
  hub : HubState
deriving Repr, DecidableEq

/-- Whole-session behaviour of `streamHandler`: register the fresh channel,
run the select loop, and — on whichever path the handler returns — run the
deferred cleanup exactly once.  `none` when the trace leaves the loop still
running; `some` requires the cleanup to have succeeded (it always does for a
fresh channel, since the channel is closed for the first time). -/
def streamSession (id : Nat) (q : ClientQueue) (st : HubState)
    (events : List SessionEvent) : Option SessionExit :=
  let st1 := registerClient id q st
  match sessionLoop events with
  | none => none
  | some fs =>
      match deregStep id st1 with
      | Except.error _ => none
      | Except.ok st2 =>
          some { frames := fs, ops := [RegOp.reg id, RegOp.dereg id], hub := st2 }

theorem sessionLoop_isSome_of_cancel (events : List SessionEvent)
    (h : SessionEvent.cancel ∈ events) : (sessionLoop events).isSome := by
  induction events with
  | nil => cases h
  | cons e rest ih =>
      cases e with
      | cancel => simp [sessionLoop]
      | deliver p =>
          have hr : SessionEvent.cancel ∈ rest := by simpa using h
          simp [sessionLoop, Option.isSome_map]
          exact ih hr
      | tick =>
          have hr : SessionEvent.cancel ∈ rest := by simpa using h
          simp [sessionLoop, Option.isSome_map]
          exact ih hr

/-- C4.  Every exit of the session loop runs the deregistration step exactly
once: for any event trace in which the client's cancellation fires, the
session terminates, its registry-operation trace contains exactly one
deregistration of its channel (so no exit path skips it or repeats it), the
cleanup itself succeeds, and the hub is left with exactly the membership it
had before the session registered. -/
theorem session_deregisters_exactly_once
    (id : Nat) (q : ClientQueue) (st : HubState) (events : List SessionEvent)
    (hfresh : id ∉ st.regs.map Prod.fst) (hopen : id ∉ st.closedChans)
    (hc : SessionEvent.cancel ∈ events) :
    ∃ ex : SessionExit, streamSession id q st events = some ex ∧
      ex.ops.count (RegOp.dereg id) = 1 ∧
      ex.hub.regs = st.regs := by
  obtain ⟨fs, hfs⟩ :=
    Option.isSome_iff_exists.mp (sessionLoop_isSome_of_cancel events hc)
  have hrm : removeClient id ((id, q) :: st.regs) = st.regs := by
    simp only [removeClient, List.filter_cons, bne_self_eq_false,
      Bool.false_eq_true, if_false]
    exact removeClient_of_fresh id st.regs hfresh
  have hstep : deregStep id (registerClient id q st) =
      Except.ok { regs := st.regs, closedChans := id :: st.closedChans } := by
    simp [deregStep, registerClient, hopen, hrm]
  refine ⟨{ frames := fs, ops := [RegOp.reg id, RegOp.dereg id],
            hub := { regs := st.regs, closedChans := id :: st.closedChans } },
          ?_, ?_, rfl⟩
  · simp [streamSession, hfs, hstep]
  · simp [List.count_cons]

/-- C4 witness: a concrete session over the trace tick, deliver, cancel on a
one-client hub. -/
theorem session_deregisters_exactly_once_witness :
    ∃ ex : SessionExit,
      streamSession 9 ⟨10, []⟩ { regs := [(3, ⟨10, []⟩)], closedChans := [] }
        [SessionEvent.tick, SessionEvent.deliver "hi", SessionEvent.cancel] =
        some ex ∧
      ex.ops.count (RegOp.dereg 9) = 1 ∧
      ex.hub.regs = [(3, ⟨10, []⟩)] :=
  session_deregisters_exactly_once 9 ⟨10, []⟩
    { regs := [(3, ⟨10, []⟩)], closedChans := [] }
    [SessionEvent.tick, SessionEvent.deliver "hi", SessionEvent.cancel]
    (by decide) (by decide) (by decide)

/-- The keepalive interval, `time.After(15 * time.Second)` in `streamHandler`
(src/backend/main.go:153), in seconds. -/
def keepaliveInterval : Nat := 15

/-- A frame written by the session, stamped with the time it was written. -/
inductive TimedFrame
  | data (payload : String) (t : Nat)
  | keepalive (t : Nat)
deriving Repr, DecidableEq

/-- Wire rendering of a frame by `streamHandler`
(`fmt.Fprintf(w, "data: %s\n\n", msg)` and `fmt.Fprintf(w, ":keepalive\n\n")`). -/
def renderFrame : TimedFrame → String
  | TimedFrame.data p _ => "data: " ++ p ++ "\n\n"
  | TimedFrame.keepalive _ => ":keepalive\n\n"

/-- Timed behaviour of the select loop of `streamHandler`
(src/backend/main.go:146-157): each iteration re-creates the 15-second timer
(`time.After` is evaluated anew at every `select`), so with the timer armed at
time `s` the iteration wakes on the earlier of the next queued delivery and
the timeout at `s + 15`.  `arrivals` are the nondecreasing arrival times and
payloads of deliveries to the session's channel; a payload already waiting
when the iteration starts (arrival ≤ s) is taken immediately at `s`.  `fuel`
bounds the number of iterations modelled. -/
def selectLoop : Nat → List (Nat × String) → Nat → List TimedFrame
  | 0, _, _ => []
  | fuel + 1, (a, p) :: rest, s =>
      if a < s + keepaliveInterval then
        TimedFrame.data p (max s a) :: selectLoop fuel rest (max s a)
      else
        TimedFrame.keepalive (s + keepaliveInterval) ::
          selectLoop fuel ((a, p) :: rest) (s + keepaliveInterval)
  | fuel + 1, [], s =>
      TimedFrame.keepalive (s + keepaliveInterval) ::
        selectLoop fuel [] (s + keepaliveInterval)

theorem selectLoop_no_arrivals (k s : Nat) :
    selectLoop k [] s = (List.range k).map
      (fun i => TimedFrame.keepalive (s + keepaliveInterval * (i + 1))) := by
  induction k generalizing s with
  | zero => simp [selectLoop]
  | succ k ih =>
      rw [selectLoop, ih (s + keepaliveInterval), List.range_succ_eq_map]
      simp only [List.map_cons, List.map_map, Nat.mul_one]
      congr 1
      apply List.map_congr_left
      intro i _
      simp only [Function.comp_apply, Nat.succ_eq_add_one]
      congr 1
      ring

/-- C5.  The keepalive interval is 15 seconds; a session receiving no
delivery emits exactly one keepalive frame, rendered `:keepalive\n\n`, per
elapsed interval (the k-th at `s + 15*(k+1)` for a timer armed at `s`); and a
real delivery at time `a` within the current interval is emitted as a data
frame at `a` and re-arms the timer at `a`, so the loop thereafter behaves
exactly as a quiet session whose timer starts at `a` — in particular the next
keepalive comes a full interval after the delivery. -/
theorem keepalive_once_per_interval_and_reset_on_delivery
    (s a k : Nat) (p : String) (h1 : s ≤ a) (h2 : a < s + keepaliveInterval) :
    keepaliveInterval = 15 ∧
    renderFrame (TimedFrame.keepalive (s + keepaliveInterval)) =
      ":keepalive\n\n" ∧
    selectLoop k [] s = (List.range k).map
      (fun i => TimedFrame.keepalive (s + keepaliveInterval * (i + 1))) ∧
    selectLoop (k + 1) [(a, p)] s =
      TimedFrame.data p a :: selectLoop k [] a ∧
    selectLoop (k + 2) [(a, p)] s =
      TimedFrame.data p a :: TimedFrame.keepalive (a + keepaliveInterval) ::
        selectLoop k [] (a + keepaliveInterval) := by
  have hmax : max s a = a := Nat.max_eq_right h1
  have hstep : ∀ m : Nat, selectLoop (m + 1) [(a, p)] s =
      TimedFrame.data p a :: selectLoop m [] a := by
    intro m
    rw [selectLoop, if_pos h2, hmax]
  refine ⟨rfl, rfl, selectLoop_no_arrivals k s, hstep k, ?_⟩
  rw [hstep (k + 1), selectLoop]

/-- C5 witness: the theorem applied with the timer armed at time 0, a single
delivery at time 10, and two further modelled iterations. -/
theorem keepalive_once_per_interval_and_reset_on_delivery_witness :
    selectLoop 2 [] 0 =
      [TimedFrame.keepalive 15, TimedFrame.keepalive 30] ∧
    selectLoop 4 [(10, "hi")] 0 =
      TimedFrame.data "hi" 10 :: TimedFrame.keepalive 25 ::
        selectLoop 2 [] 25 := by
  have h := keepalive_once_per_interval_and_reset_on_delivery 0 10 2 "hi"
    (by decide) (by decide)
  refine ⟨?_, ?_⟩
  · rw [h.2.2.1]
    decide
  · exact h.2.2.2.2

/-- Receive on a client's channel (`msg := <-myChan` in `streamHandler`):
takes the oldest buffered payload. -/
def recvChan (q : ClientQueue) : Option (String × ClientQueue) :=
  match q.buf with
  | [] => none
  | m :: rest => some (m, { q with buf := rest })

/-- Repeatedly receiving from the channel until it is empty: the order in
which the session loop reads the buffered payloads. -/
def readAll (q : ClientQueue) : List String :=
  match q with
  | ⟨_, []⟩ => []
  | ⟨c, m :: rest⟩ => m :: readAll ⟨c, rest⟩

theorem readAll_eq_buf (q : ClientQueue) : readAll q = q.buf := by
  obtain ⟨c, buf⟩ := q
  induction buf with
  | nil => simp [readAll]
  | cons m rest ih => simp [readAll, ih]

theorem broadcastAll_getElem? (msgs : List String)
    (regs : List (Nat × ClientQueue)) (i : Nat) (r : Nat × ClientQueue)
    (hr : regs[i]? = some r)
    (hcap : r.2.buf.length + msgs.length ≤ r.2.cap) :
    (broadcastAll msgs regs)[i]? =
      some (r.1, { cap := r.2.cap, buf := r.2.buf ++ msgs }) := by
  induction msgs generalizing regs r with
  | nil =>
      simpa [broadcastAll] using hr
  | cons m ms ih =>
      have hfree : r.2.buf.length < r.2.cap := by
        have := hcap
        simp only [List.length_cons] at this
        omega
      have hr2 : (broadcastOnce m regs)[i]? =
          some (r.1, { cap := r.2.cap, buf := r.2.buf ++ [m] }) := by
        simp [broadcastOnce, List.getElem?_map, hr, trySend, hfree]
      have hcap2 :
          ({ cap := r.2.cap, buf := r.2.buf ++ [m] } : ClientQueue).buf.length
            + ms.length ≤ r.2.cap := by
        simp only [List.length_append, List.length_singleton]
        simp only [List.length_cons] at hcap
        omega
      have := ih (broadcastOnce m regs)
        (r.1, { cap := r.2.cap, buf := r.2.buf ++ [m] }) hr2 hcap2
      simpa [broadcastAll, List.append_assoc] using this

/-- C6.  Per-registration FIFO: broadcasting the payloads `msgs` in order,
to a registry in which registration `i` holds queue `r` with enough free
capacity, appends exactly `msgs` in that order to that registration's buffer,
and the session loop's repeated channel receives read the buffer back
front-first — so a client registered throughout broadcasts issued in a given
order reads them back in exactly that order. -/
theorem per_registration_fifo_order (msgs : List String)
    (regs : List (Nat × ClientQueue)) (i : Nat) (r : Nat × ClientQueue)
    (hr : regs[i]? = some r)
    (hcap : r.2.buf.length + msgs.length ≤ r.2.cap) :
    (broadcastAll msgs regs)[i]? =
      some (r.1, { cap := r.2.cap, buf := r.2.buf ++ msgs }) ∧
    readAll { cap := r.2.cap, buf := r.2.buf ++ msgs } = r.2.buf ++ msgs := by
  exact ⟨broadcastAll_getElem? msgs regs i r hr hcap,
         readAll_eq_buf _⟩

/-- C6 witness: a single client with the code's capacity-10 empty channel,
receiving broadcasts 1, 2, 3 issued in that order, reads back exactly
1, 2, 3. -/
theorem per_registration_fifo_order_witness :
    (broadcastAll ["1", "2", "3"] [(1, ⟨10, []⟩)])[0]? =
      some (1, { cap := 10, buf := ["1", "2", "3"] }) ∧
    readAll { cap := 10, buf := ([] : List String) ++ ["1", "2", "3"] } =
      [] ++ ["1", "2", "3"] := by
  have h := per_registration_fifo_order ["1", "2", "3"] [(1, ⟨10, []⟩)] 0
    (1, ⟨10, []⟩) (by decide) (by decide)
  simpa using h

/-- Default display color substituted for an empty `color` form value
(`if color == "" { color = "#ffffff" }` in `sendHandler` and
`updateProfileHandler`). -/
def defaultColor : String := "#ffffff"

/-- HTTP response as a handler leaves it: `status = none` when the handler
returns without writing a header or body (Go then serves an empty 200),
`some 500` with the error body after `http.Error(w, err.Error(), 500)`, and
`some 200` after `w.WriteHeader(http.StatusOK)`. -/
structure HttpResponse where
  status : Option Nat
  errBody : Option String
deriving Repr, DecidableEq

/-- Observable effects of one `sendHandler` call (src/backend/main.go:263-295):
the response, the users-table upsert argument pair if the upsert was issued,
whether the messages-table insert was issued, and the ChatMessage published to
`chat.global` if the publish was reached. -/
structure SendEffects where
  response : HttpResponse
  upserted : Option (String × String)
  insertAttempted : Bool
  published : Option Message
deriving Repr, DecidableEq

/-- Effects of a `sendHandler` call that returned before touching storage. -/
def noopSendEffects : SendEffects :=
  { response := { status := none, errBody := none }, upserted := none,
    insertAttempted := false, published := none }

/-- The `/send` handler `sendHandler` (src/backend/main.go:263-295) as a
function of the request (`isPost`, form values `msg`, `nick`, `color`), of
the result of the messages-table insert (`Except.ok id` when the `RETURNING
id` scan succeeds), and of the ambient hostname and formatted wall-clock
time.  The users upsert's own error is discarded by the code, so only its
argument pair is recorded. -/
def sendHandler (isPost : Bool) (content nickname color : String)
    (insertResult : Except String Nat) (host now : String) : SendEffects :=
  if !isPost then noopSendEffects
  else if content = "" || nickname = "" then noopSendEffects
  else
    let c := if color = "" then defaultColor else color
    match insertResult with
    | Except.error e =>
        { response := { status := some 500, errBody := some e },
          upserted := some (nickname, c), insertAttempted := true,
          published := none }
    | Except.ok id =>
        { response := { status := some 200, errBody := none },
          upserted := some (nickname, c), insertAttempted := true,
          published := some
            { id := id, content := content, sender_pod := host,
              sender_nick := nickname, sender_color := c, time := now } }

/-- Observable effects of one `updateProfileHandler` call. -/
structure UpdateEffects where
  response : HttpResponse
  upserted : Option (String × String)
deriving Repr, DecidableEq

/-- The `/update` handler `updateProfileHandler`
(src/backend/main.go:211-224) as a function of the request and of the users
upsert result. -/
def updateProfileHandler (isPost : Bool) (nickname color : String)
    (upsertResult : Except String Unit) : UpdateEffects :=
  if !isPost then { response := { status := none, errBody := none },
                    upserted := none }
  else if nickname = "" then
    { response := { status := none, errBody := none }, upserted := none }
  else
    let c := if color = "" then defaultColor else color
    match upsertResult with
    | Except.error e =>
        { response := { status := some 500, errBody := some e },
          upserted := some (nickname, c) }
    | Except.ok _ =>
        { response := { status := some 200, errBody := none },
          upserted := some (nickname, c) }

/-- The `/login` handler `loginHandler` (src/backend/main.go:200-209): builds
`User{Nickname: nick}` and fills `ColorCode` only when the profile row lookup
scanned without error; the JSON encode of the result is served with the
implicit 200 status. -/
def loginHandler (nick : String) (lookup : Except String String) :
    Nat × User :=
  let base : User := { nickname := nick, color_code := "" }
  let resp := match lookup with
    | Except.ok color => { base with color_code := color }
    | Except.error _ => base
  (200, resp)

/-- C7.  On a well-formed POST to `/send`, if the durable insert of the
message fails then the handler answers HTTP 500 with the error body and
publishes nothing to `chat.global`; and in every case a published message
exists only when the insert succeeded, carrying exactly the id the insert
returned. -/
theorem send_insert_failure_prevents_publish
    (content nickname color : String) (insertResult : Except String Nat)
    (host now : String)
    (hc : content ≠ "") (hn : nickname ≠ "") :
    (∀ e, insertResult = Except.error e →
      (sendHandler true content nickname color insertResult host now).response
          = { status := some 500, errBody := some e } ∧
      (sendHandler true content nickname color insertResult host now).published
          = none) ∧
    (∀ m, (sendHandler true content nickname color insertResult host
            now).published = some m →
      insertResult = Except.ok m.id) := by
  constructor
  · rintro e rfl
    simp [sendHandler, hc, hn]
  · intro m hm
    cases insertResult with
    | error e => simp [sendHandler, hc, hn] at hm
    | ok id =>
        simp only [sendHandler, hc, hn, Bool.not_true, if_false,
          String.reduceEq, Bool.false_eq_true, Bool.or_self,
          Option.some.injEq] at hm
        have : m.id = id := by
          cases hm
          rfl
        rw [this]

/-- C7 witness: a failing insert on a concrete well-formed POST yields a 500
response and no publish. -/
theorem send_insert_failure_prevents_publish_witness :
    (sendHandler true "hi" "bob" "#123456" (Except.error "db down") "pod1"
        "12:00:00").response = { status := some 500, errBody := some "db down" } ∧
    (sendHandler true "hi" "bob" "#123456" (Except.error "db down") "pod1"
        "12:00:00").published = none :=
  (send_insert_failure_prevents_publish "hi" "bob" "#123456"
    (Except.error "db down") "pod1" "12:00:00" (by decide) (by decide)).1
    "db down" rfl

/-- C8.  A POST to `/send` with an empty `msg` or empty `nick` form value is
a complete no-op: the handler returns with no status or error body written,
no users upsert, no message insert, and no publish to `chat.global`. -/
theorem send_empty_fields_noop (content nickname color : String)
    (insertResult : Except String Nat) (host now : String)
    (h : content = "" ∨ nickname = "") :
    sendHandler true content nickname color insertResult host now =
      noopSendEffects ∧
    (sendHandler true content nickname color insertResult host
        now).response.errBody = none ∧
    (sendHandler true content nickname color insertResult host
        now).upserted = none ∧
    (sendHandler true content nickname color insertResult host
        now).insertAttempted = false ∧
    (sendHandler true content nickname color insertResult host
        now).published = none := by
  have heq : sendHandler true content nickname color insertResult host now =
      noopSendEffects := by
    cases h with
    | inl hc => simp [sendHandler, hc]
    | inr hn => simp [sendHandler, hn]
  refine ⟨heq, ?_, ?_, ?_, ?_⟩ <;> rw [heq] <;> rfl

/-- C8 witness: a POST with empty content and a concrete nickname is a
no-op. -/
theorem send_empty_fields_noop_witness :
    sendHandler true "" "bob" "#123456" (Except.ok 1) "pod1" "12:00:00" =
      noopSendEffects :=
  (send_empty_fields_noop "" "bob" "#123456" (Except.ok 1) "pod1" "12:00:00"
    (Or.inl rfl)).1

/-- C9.  When the `color` form value is empty but the other required fields
are present, both handlers substitute the default `"#ffffff"`: `/send`
upserts `(nick, "#ffffff")` into the users table and, whenever the insert
succeeds and the publish is reached, the published ChatMessage carries
`sender_color = "#ffffff"`; `/update` upserts `(nick, "#ffffff")` as well. -/
theorem empty_color_defaults_to_white
    (content nickname : String) (insertResult : Except String Nat)
    (upsertResult : Except String Unit) (host now : String)
    (hc : content ≠ "") (hn : nickname ≠ "") :
    defaultColor = "#ffffff" ∧
    (sendHandler true content nickname "" insertResult host now).upserted =
      some (nickname, defaultColor) ∧
    (∀ m, (sendHandler true content nickname "" insertResult host
        now).published = some m → m.sender_color = defaultColor) ∧
    (updateProfileHandler true nickname "" upsertResult).upserted =
      some (nickname, defaultColor) := by
    refine ⟨rfl, ?_, ?_, ?_⟩
    · cases insertResult <;> simp [sendHandler, hc, hn]
    · intro m hm
      cases insertResult with
      | error e => simp [sendHandler, hc, hn] at hm
      | ok id =>
          simp only [sendHandler, hc, hn, String.reduceEq, if_true,
            Bool.false_eq_true, Bool.or_self, Option.some.injEq] at hm
          cases hm
          rfl
    · cases upsertResult <;> simp [updateProfileHandler, hn]

/-- C9 witness: concrete `/send` and `/update` requests with empty color. -/
theorem empty_color_defaults_to_white_witness :
    (sendHandler true "hi" "bob" "" (Except.ok 4) "pod1"
        "12:00:00").upserted = some ("bob", defaultColor) ∧
    (updateProfileHandler true "bob" "" (Except.ok ())).upserted =
      some ("bob", defaultColor) := by
  have h := empty_color_defaults_to_white "hi" "bob" (Except.ok 4)
    (Except.ok ()) "pod1" "12:00:00" (by decide) (by decide)
  exact ⟨h.2.1, h.2.2.2⟩

/-- C10.  Every GET to `/login` is answered with HTTP 200 and a JSON User
whose `nickname` echoes the request's `nick` query parameter; when the
profile lookup scan fails (in particular when no row exists for the
nickname), the `color_code` field is the empty string — an unknown nickname
is never surfaced as an error. -/
theorem login_always_succeeds (nick e : String)
    (lookup : Except String String) :
    (loginHandler nick lookup).1 = 200 ∧
    (loginHandler nick lookup).2.nickname = nick ∧
    (loginHandler nick (Except.error e)).2.color_code = "" := by
  refine ⟨rfl, ?_, rfl⟩
  cases lookup <;> rfl

end GoTalk
